import Mathlib

/-!
Verification of the job execution engine of no-gap-gas-v2.

The Go source is shallowly embedded: pure control flow becomes Lean
functions, the effects that the claims talk about (status updates written
through the job record store, log flushes, task invocations, panics that
escape a function) are returned explicitly as data, and the concurrent
job-manager/worker system is embedded as a labelled transition system on
an explicit state type.

Conventions used throughout:
  - a Go `error` value is `Option String` (`none` = nil, `some msg` = the
    error's message);
  - Go `int64` tenant/user ids are `Int`;
  - wall-clock instants are abstract parameters (`Nat` timestamps or
    `String` RFC3339 stamps) supplied from outside, since the engine only
    ever records "now", never compares times.
-/

/-! ## Retry policy: retryWithBackoff (part_001 lines 339-357)

Go source:

  func retryWithBackoff(ctx context.Context, maxRetries int, fn func() error) error {
      var err error
      for i := 0; i < maxRetries; i++ {
          if i > 0 {
              waitTime := time.Duration(i*2) * time.Second
              log.Printf(...); time.Sleep(waitTime)
          }
          err = fn()
          if err == nil { return nil }
          log.Printf(...)
      }
      return err
  }

The callable `fn` is stateful in Go (each invocation may give a different
result); it is embedded as `fn : Nat → Option String`, the result of its
k-th invocation (0-indexed). Besides the returned error we record the
number of invocations actually made and the list of sleeps performed (in
seconds, in order), since the claims speak about both. -/

structure RetryResult where
  err : Option String
  attempts : Nat
  waits : List Nat
deriving Repr, DecidableEq

/-- Loop body of retryWithBackoff: `i` is the Go loop index, `remaining`
the number of loop iterations still allowed (`maxRetries - i`), `err` the
current value of the Go variable `err`, `waits`/`attempts` the effects
accumulated so far. -/
def retryLoop (fn : Nat → Option String) : Nat → Nat → Option String → List Nat → Nat → RetryResult
  | _, 0, err, waits, attempts => ⟨err, attempts, waits⟩
  | i, r + 1, _, waits, attempts =>
      let waits2 := if 0 < i then waits ++ [i * 2] else waits
      match fn i with
      | none => ⟨none, attempts + 1, waits2⟩
      | some e => retryLoop fn (i + 1) r (some e) waits2 (attempts + 1)

/-- retryWithBackoff. `maxRetries` is a Go `int`, so it may be
non-positive, in which case the loop body never runs (`Int.toNat` of a
non-positive value is 0) and the zero value of `err` (nil) is returned. -/
def retryWithBackoff (maxRetries : Int) (fn : Nat → Option String) : RetryResult :=
  retryLoop fn 0 maxRetries.toNat none [] 0

/-- The sleeps performed when the loop runs iterations 0..n of its body:
before iteration i (0-indexed, i ≥ 1) it sleeps i*2 seconds, so after n+1
iterations the sleep list is [2, 4, ..., n*2]. -/
def backoffWaits (n : Nat) : List Nat :=
  (List.range n).map (fun j => (j + 1) * 2)

/-- One iteration's contribution to the sleep list. -/
def stepWait (i : Nat) : List Nat := if 0 < i then [i * 2] else []

/-- Sleeps contributed by n consecutive iterations starting at index i. -/
def waitsFrom : Nat → Nat → List Nat
  | _, 0 => []
  | i, n + 1 => stepWait i ++ waitsFrom (i + 1) n

theorem retryLoop_waits2_eq (i : Nat) (waits : List Nat) :
    (if 0 < i then waits ++ [i * 2] else waits) = waits ++ stepWait i := by
  by_cases h : 0 < i <;> simp [stepWait, h]

theorem waitsFrom_shift (i n : Nat) (hi : 0 < i) :
    waitsFrom i n = (List.range n).map (fun j => (i + j) * 2) := by
  induction n generalizing i with
  | zero => simp [waitsFrom]
  | succ n ih =>
      rw [waitsFrom, stepWait, if_pos hi, List.range_succ_eq_map]
      rw [ih (i + 1) (Nat.succ_pos i)]
      simp only [List.map_cons, List.map_map, List.cons_append, List.nil_append]
      refine List.cons_eq_cons.mpr ⟨by ring, ?_⟩
      refine List.map_congr_left ?_
      intro a _
      show (i + 1 + a) * 2 = (i + (a + 1)) * 2
      ring

theorem waitsFrom_one (n : Nat) : waitsFrom 1 n = backoffWaits n := by
  rw [waitsFrom_shift 1 n Nat.one_pos, backoffWaits]
  apply List.map_congr_left
  intro a _
  ring

/-- If the first k invocations (from index i) fail and invocation i+k
succeeds, the loop stops right after that success, returning nil. -/
theorem retryLoop_first_success (fn : Nat → Option String) (k : Nat) :
    ∀ r i err waits attempts, k < r →
    (∀ j, j < k → fn (i + j) ≠ none) → fn (i + k) = none →
    retryLoop fn i r err waits attempts =
      ⟨none, attempts + (k + 1), waits ++ waitsFrom i (k + 1)⟩ := by
  induction k with
  | zero =>
      intro r i err waits attempts hr _ hk
      obtain ⟨r', rfl⟩ := Nat.exists_eq_succ_of_ne_zero (Nat.pos_iff_ne_zero.mp hr)
      rw [retryLoop, retryLoop_waits2_eq]
      simp only [Nat.add_zero] at hk
      rw [hk]
      simp [waitsFrom]
  | succ k ih =>
      intro r i err waits attempts hr hfail hk
      obtain ⟨r', rfl⟩ := Nat.exists_eq_succ_of_ne_zero (Nat.pos_iff_ne_zero.mp (Nat.lt_of_le_of_lt (Nat.zero_le _) hr))
      rw [retryLoop, retryLoop_waits2_eq]
      have h0 : fn (i + 0) ≠ none := hfail 0 (Nat.succ_pos k)
      simp only [Nat.add_zero] at h0
      obtain ⟨e, he⟩ := Option.ne_none_iff_exists'.mp h0
      simp only [he]
      have hk' : fn (i + 1 + k) = none := by
        have : i + 1 + k = i + (k + 1) := by ring
        rw [this]; exact hk
      have hfail' : ∀ j, j < k → fn (i + 1 + j) ≠ none := by
        intro j hj
        have : i + 1 + j = i + (j + 1) := by ring
        rw [this]
        exact hfail (j + 1) (Nat.succ_lt_succ hj)
      rw [ih r' (i + 1) (some e) (waits ++ stepWait i) (attempts + 1)
            (Nat.lt_of_succ_lt_succ hr) hfail' hk']
      simp only [RetryResult.mk.injEq, true_and]
      constructor
      · ring
      · simp [waitsFrom, List.append_assoc]

/-- If all r invocations from index i fail, the loop makes exactly r
invocations and returns the error of the last one. -/
theorem retryLoop_all_fail (fn : Nat → Option String) (r : Nat) :
    ∀ i err waits attempts, 0 < r →
    (∀ j, j < r → fn (i + j) ≠ none) →
    retryLoop fn i r err waits attempts =
      ⟨fn (i + r - 1), attempts + r, waits ++ waitsFrom i r⟩ := by
  induction r with
  | zero => intro i err waits attempts h; exact absurd h (Nat.lt_irrefl 0)
  | succ r ih =>
      intro i err waits attempts _ hfail
      rw [retryLoop, retryLoop_waits2_eq]
      have h0 : fn (i + 0) ≠ none := hfail 0 (Nat.succ_pos r)
      simp only [Nat.add_zero] at h0
      obtain ⟨e, he⟩ := Option.ne_none_iff_exists'.mp h0
      simp only [he]
      cases r with
      | zero =>
          rw [retryLoop]
          simp [waitsFrom, he]
      | succ r' =>
          have hfail' : ∀ j, j < r' + 1 → fn (i + 1 + j) ≠ none := by
            intro j hj
            have : i + 1 + j = i + (j + 1) := by ring
            rw [this]
            exact hfail (j + 1) (Nat.succ_lt_succ hj)
          rw [ih (i + 1) (some e) (waits ++ stepWait i) (attempts + 1) (Nat.succ_pos r') hfail']
          simp only [RetryResult.mk.injEq]
          refine ⟨by congr 1; omega, by ring, by simp [waitsFrom, List.append_assoc]⟩

theorem waitsFrom_zero (n : Nat) : waitsFrom 0 (n + 1) = backoffWaits n := by
  rw [waitsFrom, stepWait]
  simp [waitsFrom_one]

/-- For any maxRetries ≥ 1 and any operation, the sleep list performed by
retryWithBackoff is [2, 4, ..., (attempts-1)*2] where attempts is the
number of invocations actually made. -/
theorem retryWithBackoff_waits_shape (maxRetries : Int) (hm : 1 ≤ maxRetries)
    (fn : Nat → Option String) :
    (retryWithBackoff maxRetries fn).waits =
      backoffWaits ((retryWithBackoff maxRetries fn).attempts - 1) := by
  classical
  have htn : 1 ≤ maxRetries.toNat := by omega
  by_cases hex : ∃ k, k < maxRetries.toNat ∧ fn k = none
  · obtain ⟨k, hk, hnone⟩ := hex
    have hexists : ∃ k, fn k = none := ⟨k, hnone⟩
    have hk0 : Nat.find hexists < maxRetries.toNat :=
      Nat.lt_of_le_of_lt (Nat.find_min' hexists hnone) hk
    have heq := retryLoop_first_success fn (Nat.find hexists) maxRetries.toNat 0 none [] 0 hk0
      (by intro j hj; simpa using Nat.find_min hexists hj)
      (by simpa using Nat.find_spec hexists)
    rw [retryWithBackoff, heq]
    simp [waitsFrom_zero]
  · push_neg at hex
    obtain ⟨n, hn⟩ : ∃ n, maxRetries.toNat = n + 1 := ⟨maxRetries.toNat - 1, by omega⟩
    have heq := retryLoop_all_fail fn maxRetries.toNat 0 none [] 0 (by omega)
      (by intro j hj; simpa using hex j hj)
    rw [retryWithBackoff, heq]
    simp [hn, waitsFrom_zero]

/-- C4: Retry Policy contract. For any maxRetries ≥ 1 and any operation
(whose i-th invocation result is fn i): (a) if the first k invocations
fail and invocation k succeeds, execution makes exactly k+1 attempts and
returns nil, sleeping 2, 4, ..., k*2 seconds before attempts 2..k+1;
(b) if all maxRetries invocations fail, exactly maxRetries attempts are
made and the returned error is the last attempt's error; (c) in every
case, before attempt i (2 ≤ i ≤ attempts, 1-indexed) the sleep is
exactly (i-1)*2 seconds. -/
theorem retry_policy_contract (maxRetries : Int) (hm : 1 ≤ maxRetries)
    (fn : Nat → Option String) :
    (∀ k, k < maxRetries.toNat → (∀ j, j < k → fn j ≠ none) → fn k = none →
        retryWithBackoff maxRetries fn = ⟨none, k + 1, backoffWaits k⟩) ∧
    ((∀ j, j < maxRetries.toNat → fn j ≠ none) →
        retryWithBackoff maxRetries fn =
          ⟨fn (maxRetries.toNat - 1), maxRetries.toNat,
            backoffWaits (maxRetries.toNat - 1)⟩) ∧
    (∀ i, 2 ≤ i → i ≤ (retryWithBackoff maxRetries fn).attempts →
        (retryWithBackoff maxRetries fn).waits[i - 2]? = some ((i - 1) * 2)) := by
  refine ⟨?_, ?_, ?_⟩
  · intro k hk hfail hsucc
    have heq := retryLoop_first_success fn k maxRetries.toNat 0 none [] 0 hk
      (by intro j hj; simpa using hfail j hj) (by simpa using hsucc)
    rw [retryWithBackoff, heq]
    simp [waitsFrom_zero]
  · intro hall
    obtain ⟨n, hn⟩ : ∃ n, maxRetries.toNat = n + 1 := ⟨maxRetries.toNat - 1, by omega⟩
    have heq := retryLoop_all_fail fn maxRetries.toNat 0 none [] 0 (by omega)
      (by intro j hj; simpa using hall j hj)
    rw [retryWithBackoff, heq]
    simp [hn, waitsFrom_zero]
  · intro i hi2 hile
    rw [retryWithBackoff_waits_shape maxRetries hm fn]
    have hlt : i - 2 < (retryWithBackoff maxRetries fn).attempts - 1 := by omega
    rw [backoffWaits]
    rw [List.getElem?_map, List.getElem?_range hlt]
    show some ((i - 2 + 1) * 2) = some ((i - 1) * 2)
    congr 1
    omega

/-- Witness for retry_policy_contract: an operation that fails once then
succeeds, run under maxRetries = 3, returns nil after exactly 2 attempts
with a single 2-second sleep before the second attempt. -/
theorem retry_policy_contract_witness :
    retryWithBackoff 3 (fun k => if k = 0 then some "e0" else none) =
      ⟨none, 2, backoffWaits 1⟩ :=
  (retry_policy_contract 3 (by norm_num)
      (fun k => if k = 0 then some "e0" else none)).1 1
    (by decide) (by decide) (by decide)

/-- C10: retryWithBackoff with a non-positive maxRetries never enters the
loop body: it returns the zero value of err (nil, i.e. success) with zero
invocations of the operation and no sleeps. -/
theorem retry_nonpositive_returns_nil (maxRetries : Int) (h : maxRetries ≤ 0)
    (fn : Nat → Option String) :
    retryWithBackoff maxRetries fn = ⟨none, 0, []⟩ := by
  have htn : maxRetries.toNat = 0 := Int.toNat_of_nonpos h
  rw [retryWithBackoff, htn, retryLoop]

/-- Witness for retry_nonpositive_returns_nil at maxRetries = -2 with an
always-failing operation: the operation is never invoked and the result
is nil. -/
theorem retry_nonpositive_returns_nil_witness :
    retryWithBackoff (-2) (fun _ => some "always fails") = ⟨none, 0, []⟩ :=
  retry_nonpositive_returns_nil (-2) (by norm_num) (fun _ => some "always fails")

/-! ## Job execution: executeJob (part_003 lines 92-164), UpdateJobStatus
(checker.go lines 773-790), JobLogger (part_003 lines 283-312)

executeJob performs effects rather than returning a value; the embedding
returns those effects explicitly: the ordered list of status updates
written through UpdateJobStatus, whether logger.Save() executed, whether
a task executor was invoked, and whether a panic escaped the function.
The three task executors (runTestLoginJob, runTestCheckJob, runFullJob)
receive the user config and return a Go error; they are abstracted as a
callable from the job type to a TaskOutcome. Go has three ways out of
such a call: return nil, return a non-nil error, or panic. executeJob
contains no recover and no deferred Save, so a panic unwinds through it:
no further statement of executeJob runs. -/

/-- Result of invoking a task executor: a nil return, a non-nil error
return carrying its message, or a panic that unwinds the stack. -/
inductive TaskOutcome
  | ok : TaskOutcome
  | fails : String → TaskOutcome
  | panics : String → TaskOutcome
deriving Repr, DecidableEq

/-- UserConfig rows as loaded by GetUserConfig (checker.go); only the
fields the engine forwards to task executors. -/
structure UserConfig where
  gasolinaEmail : String
  gasolinaPassword : String
  accountNumber : String
  checkURL : String
  cronSchedule : String
  dryRun : Bool
  configured : Bool
deriving Repr, DecidableEq

/-- Observable effects of one executeJob call. `updates` lists the
(status, error) pairs passed to UpdateJobStatus in order; `saved` is
whether logger.Save() ran; `taskInvoked` is whether the switch invoked a
task executor; `panicked` is whether a panic escaped executeJob. -/
structure ExecEffects where
  updates : List (String × Option String)
  saved : Bool
  taskInvoked : Bool
  panicked : Bool
deriving Repr, DecidableEq

/-- The switch statement of executeJob (lines 143-150): it has cases for
exactly "test-login", "test-check" and "full" and no default case, so any
other job type invokes nothing and leaves jobErr nil (`none` here means
no task executor was invoked). -/
def dispatchTask (taskOf : String → TaskOutcome) (jobType : String) : Option TaskOutcome :=
  if jobType = "test-login" then some (taskOf jobType)
  else if jobType = "test-check" then some (taskOf jobType)
  else if jobType = "full" then some (taskOf jobType)
  else none

/-- executeJob (part_003 lines 92-164). `cfgRes` is the result of
GetUserConfig(job.UserID); `mkdirErr` the error of os.MkdirAll for the
screenshot directory; `taskOf` the task executors keyed by job type.
Control flow mirrors the source: status "running" is written first; a
config or mkdir failure logs, writes status "failed" with the formatted
message, saves the logger and returns; then the switch dispatches on
job.Type; a non-nil jobErr writes status "failed" with jobErr.Error(),
otherwise status "completed" with nil error; logger.Save() runs last.
There is no defer/recover around any of this, so a panicking task
executor skips every statement after the switch, including Save. -/
def executeJob (cfgRes : Except String UserConfig) (mkdirErr : Option String)
    (taskOf : String → TaskOutcome) (jobType : String) : ExecEffects :=
  match cfgRes with
  | .error e =>
      { updates := [("running", none),
                    ("failed", some ("Failed to get user config: " ++ e))],
        saved := true, taskInvoked := false, panicked := false }
  | .ok _ =>
      match mkdirErr with
      | some e =>
          { updates := [("running", none),
                        ("failed", some ("Failed to create screenshot dir: " ++ e))],
            saved := true, taskInvoked := false, panicked := false }
      | none =>
          match dispatchTask taskOf jobType with
          | some (.panics _) =>
              { updates := [("running", none)],
                saved := false, taskInvoked := true, panicked := true }
          | some (.fails m) =>
              { updates := [("running", none), ("failed", some m)],
                saved := true, taskInvoked := true, panicked := false }
          | some .ok =>
              { updates := [("running", none), ("completed", none)],
                saved := true, taskInvoked := true, panicked := false }
          | none =>
              { updates := [("running", none), ("completed", none)],
                saved := true, taskInvoked := false, panicked := false }

/-- The `case job := <-queue: jm.executeJob(job)` arm of workerLoop
(part_003 lines 85-86). workerLoop adds no recover around executeJob, so
the effects of handling one dequeued job are exactly executeJob's and a
panicked = true outcome escapes the worker goroutine itself. -/
def workerLoopHandle (cfgRes : Except String UserConfig) (mkdirErr : Option String)
    (taskOf : String → TaskOutcome) (jobType : String) : ExecEffects :=
  executeJob cfgRes mkdirErr taskOf jobType

/-- Job rows as read and written by the job record store (checker.go);
timestamps are abstract Nat instants. -/
structure JobRec where
  id : String
  status : String
  error : Option String
  startedAt : Option Nat
  completedAt : Option Nat
deriving Repr, DecidableEq

/-- The store-level CreateJob INSERT (checker.go lines 664-674): a fresh
row has status "pending", NULL error and NULL timestamps. -/
def CreateJobRecord (id : String) : JobRec :=
  { id := id, status := "pending", error := none, startedAt := none, completedAt := none }

/-- UpdateJobStatus (checker.go lines 773-790): status "running" also
sets started_at = NOW(); status "completed" or "failed" also sets error
and completed_at = NOW(); any other status only replaces status. `now`
is the NOW() instant of this call. -/
def UpdateJobStatus (now : Nat) (j : JobRec) (status : String) (errMsg : Option String) : JobRec :=
  if status = "running" then
    { j with status := status, startedAt := some now }
  else if status = "completed" ∨ status = "failed" then
    { j with status := status, error := errMsg, completedAt := some now }
  else
    { j with status := status }

/-- Embeds a task executor that returns (never panics): its Go signature
is `func(...) error`, so a run that terminates normally yields nil or a
non-nil error. -/
def TaskOutcome.ofReturn : Option String → TaskOutcome
  | none => .ok
  | some m => .fails m

theorem ofReturn_ne_panics (o : Option String) (m : String) :
    TaskOutcome.ofReturn o ≠ TaskOutcome.panics m := by
  cases o <;> simp [TaskOutcome.ofReturn]

/-- C9: a dequeued job whose type is none of "test-login", "test-check"
and "full" matches no case of the switch, which has no default: no task
executor is invoked, jobErr stays nil, and the job is recorded as
"completed" with nil error (given that the two steps before the switch,
GetUserConfig and MkdirAll, succeed). -/
theorem unknown_type_completes_without_execution (jobType : String)
    (h1 : jobType ≠ "test-login") (h2 : jobType ≠ "test-check") (h3 : jobType ≠ "full")
    (cfg : UserConfig) (taskOf : String → TaskOutcome) :
    executeJob (Except.ok cfg) none taskOf jobType =
      { updates := [("running", none), ("completed", none)],
        saved := true, taskInvoked := false, panicked := false } := by
  have hd : dispatchTask taskOf jobType = none := by
    rw [dispatchTask, if_neg h1, if_neg h2, if_neg h3]
  simp [executeJob, hd]

/-- Witness for unknown_type_completes_without_execution at the concrete
unrecognized job type "cleanup". -/
theorem unknown_type_completes_without_execution_witness :
    executeJob (Except.ok ⟨"a@b.c", "pw", "42", "http://x", "", false, true⟩) none
      (fun _ => TaskOutcome.fails "must not run") "cleanup" =
      { updates := [("running", none), ("completed", none)],
        saved := true, taskInvoked := false, panicked := false } :=
  unknown_type_completes_without_execution "cleanup" (by decide) (by decide) (by decide)
    ⟨"a@b.c", "pw", "42", "http://x", "", false, true⟩ (fun _ => TaskOutcome.fails "must not run")

/-- C5 counterexample: on the one abnormal exit path — a task executor
that panics during a "full" job — executeJob does not flush the logger
(saved = false), because the flush at line 162 is not deferred and the
panic unwinds past it. This refutes the claim that the flush happens on
every exit path even if the task panics. -/
theorem flush_skipped_on_panic_counterexample :
    (executeJob (Except.ok ⟨"e@x.y", "pw", "7", "http://u", "", false, true⟩) none
        (fun _ => TaskOutcome.panics "chromedp crashed") "full").saved = false ∧
    (executeJob (Except.ok ⟨"e@x.y", "pw", "7", "http://u", "", false, true⟩) none
        (fun _ => TaskOutcome.panics "chromedp crashed") "full").panicked = true := by
  exact ⟨rfl, rfl⟩

/-- C5 amended: logger.Save() runs on every normal return path of
executeJob — the config-failure return, the mkdir-failure return, the
task-failure path and the success path — but there is no deferred flush,
so Save is skipped exactly when a panic escapes the task executor. -/
theorem flush_on_every_return_path (cfgRes : Except String UserConfig)
    (mkdirErr : Option String) (taskOf : String → TaskOutcome) (jobType : String) :
    (executeJob cfgRes mkdirErr taskOf jobType).saved
      = !(executeJob cfgRes mkdirErr taskOf jobType).panicked := by
  cases cfgRes with
  | error e => rfl
  | ok c =>
      cases mkdirErr with
      | some e => rfl
      | none =>
          cases h : dispatchTask taskOf jobType with
          | none => simp [executeJob, h]
          | some o => cases o <;> simp [executeJob, h]

/-- C6 counterexample: a task executor that panics is not caught at the
worker boundary: workerLoop wraps executeJob in no recover, so the panic
escapes the worker goroutine (panicked = true, which under Go semantics
terminates the whole process) and the job is never recorded as "failed". -/
theorem panic_escapes_worker_counterexample :
    (workerLoopHandle (Except.ok ⟨"w@x.y", "pw", "9", "http://u", "", true, true⟩) none
        (fun _ => TaskOutcome.panics "nil pointer dereference") "test-login").panicked = true ∧
    ((workerLoopHandle (Except.ok ⟨"w@x.y", "pw", "9", "http://u", "", true, true⟩) none
        (fun _ => TaskOutcome.panics "nil pointer dereference") "test-login").updates.all
      (fun u => u.1 != "failed")) = true := by
  exact ⟨rfl, rfl⟩

/-- C6 amended: the worker boundary contains no recover, so an
unexpected fault (panicking task executor) escapes the worker goroutine
with no "failed" status recorded and no log flush; only ordinary error
returns are contained, in which case the worker records a terminal
status and does not crash. -/
theorem worker_boundary_fault_handling (cfgRes : Except String UserConfig)
    (mkdirErr : Option String) (taskOf : String → TaskOutcome) (jobType : String) :
    ((workerLoopHandle cfgRes mkdirErr taskOf jobType).panicked = true →
      ((workerLoopHandle cfgRes mkdirErr taskOf jobType).updates.all
          (fun u => u.1 != "failed")) = true ∧
      (workerLoopHandle cfgRes mkdirErr taskOf jobType).saved = false) ∧
    ((workerLoopHandle cfgRes mkdirErr taskOf jobType).panicked = false →
      ∃ fin e, (workerLoopHandle cfgRes mkdirErr taskOf jobType).updates
          = [("running", none), (fin, e)] ∧ (fin = "completed" ∨ fin = "failed")) := by
  rw [workerLoopHandle]
  cases cfgRes with
  | error e =>
      exact ⟨fun h => by simp [executeJob] at h,
             fun _ => ⟨"failed", some ("Failed to get user config: " ++ e), rfl, Or.inr rfl⟩⟩
  | ok c =>
      cases mkdirErr with
      | some e =>
          exact ⟨fun h => by simp [executeJob] at h,
                 fun _ => ⟨"failed", some ("Failed to create screenshot dir: " ++ e), rfl, Or.inr rfl⟩⟩
      | none =>
          cases h : dispatchTask taskOf jobType with
          | none =>
              refine ⟨fun hp => ?_, fun _ => ⟨"completed", none, by simp [executeJob, h], Or.inl rfl⟩⟩
              simp [executeJob, h] at hp
          | some o =>
              cases o with
              | ok =>
                  refine ⟨fun hp => ?_, fun _ => ⟨"completed", none, by simp [executeJob, h], Or.inl rfl⟩⟩
                  simp [executeJob, h] at hp
              | fails m =>
                  refine ⟨fun hp => ?_, fun _ => ⟨"failed", some m, by simp [executeJob, h], Or.inr rfl⟩⟩
                  simp [executeJob, h] at hp
              | panics m =>
                  refine ⟨fun _ => ⟨?_, ?_⟩, fun hp => ?_⟩
                  · simp [executeJob, h]
                  · simp [executeJob, h]
                  · simp [executeJob, h] at hp

/-- Witness for worker_boundary_fault_handling: at a concrete panicking
input, the first conjunct applies and shows no "failed" record and no
flush. -/
theorem worker_boundary_fault_handling_witness :
    ((workerLoopHandle (Except.ok ⟨"q@x.y", "p", "1", "http://u", "", false, true⟩) none
        (fun _ => TaskOutcome.panics "index out of range") "test-check").updates.all
      (fun u => u.1 != "failed")) = true ∧
    (workerLoopHandle (Except.ok ⟨"q@x.y", "p", "1", "http://u", "", false, true⟩) none
        (fun _ => TaskOutcome.panics "index out of range") "test-check").saved = false :=
  (worker_boundary_fault_handling (Except.ok ⟨"q@x.y", "p", "1", "http://u", "", false, true⟩) none
    (fun _ => TaskOutcome.panics "index out of range") "test-check").1 rfl

/-- C7: job lifecycle invariant. For every dequeued job (task executors
are Go functions returning an error, embedded via TaskOutcome.ofReturn),
executeJob emits exactly two status updates: first "running" (which
UpdateJobStatus persists together with started_at = now), then exactly
one terminal update — "completed" with nil error, or "failed" with the
final failure's message (the config-fetch failure, the mkdir failure, or
the error returned by the dispatched task executor). Applying the two
updates to a fresh "pending" record sets started_at at the first update
and completed_at at the second, and neither update touches the other
timestamp, so each is set exactly once. -/
theorem job_lifecycle_invariant (cfgRes : Except String UserConfig)
    (mkdirErr : Option String) (taskRes : String → Option String) (jobType : String)
    (id : String) (t1 t2 : Nat) :
    ∃ fin e,
      (executeJob cfgRes mkdirErr (fun ty => TaskOutcome.ofReturn (taskRes ty)) jobType).updates
          = [("running", none), (fin, e)] ∧
      ((fin = "completed" ∧ e = none) ∨
       (fin = "failed" ∧
         ((∃ s, cfgRes = Except.error s ∧ e = some ("Failed to get user config: " ++ s)) ∨
          (∃ s, (∃ c, cfgRes = Except.ok c) ∧ mkdirErr = some s ∧
                e = some ("Failed to create screenshot dir: " ++ s)) ∨
          (∃ m, dispatchTask (fun ty => TaskOutcome.ofReturn (taskRes ty)) jobType
                  = some (TaskOutcome.fails m) ∧ e = some m)))) ∧
      (UpdateJobStatus t1 (CreateJobRecord id) "running" none).status = "running" ∧
      (UpdateJobStatus t1 (CreateJobRecord id) "running" none).startedAt = some t1 ∧
      (UpdateJobStatus t1 (CreateJobRecord id) "running" none).completedAt = none ∧
      (UpdateJobStatus t2 (UpdateJobStatus t1 (CreateJobRecord id) "running" none) fin e).status = fin ∧
      (UpdateJobStatus t2 (UpdateJobStatus t1 (CreateJobRecord id) "running" none) fin e).error = e ∧
      (UpdateJobStatus t2 (UpdateJobStatus t1 (CreateJobRecord id) "running" none) fin e).startedAt = some t1 ∧
      (UpdateJobStatus t2 (UpdateJobStatus t1 (CreateJobRecord id) "running" none) fin e).completedAt = some t2 := by
  cases cfgRes with
  | error s =>
      exact ⟨"failed", some ("Failed to get user config: " ++ s), rfl,
        Or.inr ⟨rfl, Or.inl ⟨s, rfl, rfl⟩⟩, rfl, rfl, rfl, rfl, rfl, rfl, rfl⟩
  | ok c =>
      cases mkdirErr with
      | some s =>
          exact ⟨"failed", some ("Failed to create screenshot dir: " ++ s), rfl,
            Or.inr ⟨rfl, Or.inr (Or.inl ⟨s, ⟨c, rfl⟩, rfl, rfl⟩)⟩, rfl, rfl, rfl, rfl, rfl, rfl, rfl⟩
      | none =>
          cases h : dispatchTask (fun ty => TaskOutcome.ofReturn (taskRes ty)) jobType with
          | none =>
              exact ⟨"completed", none, by simp [executeJob, h],
                Or.inl ⟨rfl, rfl⟩, rfl, rfl, rfl, rfl, rfl, rfl, rfl⟩
          | some o =>
              cases o with
              | ok =>
                  exact ⟨"completed", none, by simp [executeJob, h],
                    Or.inl ⟨rfl, rfl⟩, rfl, rfl, rfl, rfl, rfl, rfl, rfl⟩
              | fails m =>
                  exact ⟨"failed", some m, by simp [executeJob, h],
                    Or.inr ⟨rfl, Or.inr (Or.inr ⟨m, rfl, rfl⟩)⟩, rfl, rfl, rfl, rfl, rfl, rfl, rfl⟩
              | panics m =>
                  exfalso
                  rw [dispatchTask] at h
                  split_ifs at h <;>
                    exact ofReturn_ne_panics _ m (Option.some.inj h)

/-! ## Job logs: JobLogger.Log/Save (part_003 lines 283-312) and
AppendJobLogs (checker.go lines 792-797)

The jobs table's logs column is a map from job id to the stored line
list (`none` = NULL, never written yet). Despite its name, AppendJobLogs
executes `UPDATE jobs SET logs = serialized WHERE id = ...`: it replaces
the whole stored value with the serialization of the list it is given. -/

/-- The logs column of the jobs table. -/
def LogStore : Type := String → Option (List String)

/-- AppendJobLogs (checker.go lines 792-797): a full overwrite of the
stored log of job `id` with `logs`; rows of other jobs are untouched. -/
def AppendJobLogs (store : LogStore) (id : String) (logs : List String) : LogStore :=
  fun k => if k = id then some logs else store k

/-- JobLogger (part_003 lines 283-295): the in-memory accumulated lines
of one job. -/
structure JobLogger where
  jobID : String
  logs : List String
deriving Repr, DecidableEq

/-- NewJobLogger (part_003 lines 290-295). -/
def NewJobLogger (jobID : String) : JobLogger :=
  { jobID := jobID, logs := [] }

/-- JobLogger.Log (part_003 lines 298-305): appends one entry stamped
with the current RFC3339 time (`now`, an abstract parameter). -/
def JobLogger.Log (jl : JobLogger) (now : String) (message : String) : JobLogger :=
  { jl with logs := jl.logs ++ [now ++ " " ++ message] }

/-- JobLogger.Save (part_003 lines 308-312): persists the complete
accumulated line list through AppendJobLogs. -/
def JobLogger.Save (jl : JobLogger) (store : LogStore) : LogStore :=
  AppendJobLogs store jl.jobID jl.logs

/-- Folding a sequence of (now, message) Log calls over a fresh logger
accumulates exactly the stamped entries, in call order. -/
theorem logger_accumulates (id : String) (entries : List (String × String)) :
    (entries.foldl (fun acc p => JobLogger.Log acc p.1 p.2) (NewJobLogger id)).jobID = id ∧
    (entries.foldl (fun acc p => JobLogger.Log acc p.1 p.2) (NewJobLogger id)).logs
      = entries.map (fun p => p.1 ++ " " ++ p.2) := by
  have general : ∀ (l : List (String × String)) (jl : JobLogger),
      (l.foldl (fun acc p => JobLogger.Log acc p.1 p.2) jl).jobID = jl.jobID ∧
      (l.foldl (fun acc p => JobLogger.Log acc p.1 p.2) jl).logs
        = jl.logs ++ l.map (fun p => p.1 ++ " " ++ p.2) := by
    intro l
    induction l with
    | nil => intro jl; simp
    | cons p rest ih =>
        intro jl
        refine ⟨(ih (JobLogger.Log jl p.1 p.2)).1, ?_⟩
        rw [List.foldl_cons, (ih (JobLogger.Log jl p.1 p.2)).2]
        simp [JobLogger.Log]
  exact ⟨(general entries (NewJobLogger id)).1,
    by rw [(general entries (NewJobLogger id)).2]; simp [NewJobLogger]⟩

/-- C8: each Save() writes the complete accumulated log lines of its job
as a full replacement of whatever the store held for that job before.
For a logger built from any sequence of Log calls, after Save the store
holds exactly the stamped entries of those calls in order, whatever the
previous stored value `prev` for that job was, and rows of other jobs
are untouched. -/
theorem save_overwrites_with_complete_logs (store : LogStore) (id : String)
    (entries : List (String × String)) (prev : List String) :
    (JobLogger.Save (entries.foldl (fun acc p => JobLogger.Log acc p.1 p.2) (NewJobLogger id))
        (AppendJobLogs store id prev)) id
      = some (entries.map (fun p => p.1 ++ " " ++ p.2)) ∧
    (∀ k, k ≠ id →
      (JobLogger.Save (entries.foldl (fun acc p => JobLogger.Log acc p.1 p.2) (NewJobLogger id))
          (AppendJobLogs store id prev)) k
        = (AppendJobLogs store id prev) k) := by
  obtain ⟨hid, hlogs⟩ := logger_accumulates id entries
  constructor
  · rw [JobLogger.Save, AppendJobLogs, hid, hlogs]
    simp
  · intro k hk
    rw [JobLogger.Save, AppendJobLogs, hid]
    simp [hk]

/-- Witness for save_overwrites_with_complete_logs: two Log calls on job
"job-1" over a store whose previous value for "job-1" is a stale
three-line log; Save replaces it with exactly the two stamped lines, and
job "job-2" keeps its row. -/
theorem save_overwrites_with_complete_logs_witness :
    (JobLogger.Save
        ([("t1", "Starting full job"), ("t2", "Job completed successfully")].foldl
          (fun acc p => JobLogger.Log acc p.1 p.2) (NewJobLogger "job-1"))
        (AppendJobLogs (fun _ => none) "job-1" ["old1", "old2", "old3"])) "job-1"
      = some ["t1 Starting full job", "t2 Job completed successfully"] ∧
    (JobLogger.Save
        ([("t1", "Starting full job"), ("t2", "Job completed successfully")].foldl
          (fun acc p => JobLogger.Log acc p.1 p.2) (NewJobLogger "job-1"))
        (AppendJobLogs (fun _ => none) "job-1" ["old1", "old2", "old3"])) "job-2"
      = (AppendJobLogs (fun _ => none) "job-1" ["old1", "old2", "old3"]) "job-2" :=
  ⟨(save_overwrites_with_complete_logs (fun _ => none) "job-1"
      [("t1", "Starting full job"), ("t2", "Job completed successfully")]
      ["old1", "old2", "old3"]).1,
   (save_overwrites_with_complete_logs (fun _ => none) "job-1"
      [("t1", "Starting full job"), ("t2", "Job completed successfully")]
      ["old1", "old2", "old3"]).2 "job-2" (by decide)⟩

/-! ## Job admission: JobManager.CreateJob (part_003 lines 49-73) and
JobManager.Stop (part_003 lines 42-46)

Go source of the method body:

  jobID := uuid.New().String()
  job, err := CreateJob(jobID, userID, jobType)   // store INSERT, status pending
  if err != nil { return nil, err }
  jm.mu.Lock()
  if _, ok := jm.queues[userID]; !ok { jm.queues[userID] = make(chan *Job, 10) }
  if !jm.workers[userID] { jm.workers[userID] = true; jm.wg.Add(1); go jm.workerLoop(userID) }
  jm.mu.Unlock()
  jm.queues[userID] <- job
  return job, nil

The embedding treats the whole call as one atomic operation on the
manager state. The final statement is a send on a buffered channel of
capacity 10: Go semantics complete the send only while the buffer holds
fewer than 10 elements; with a full buffer and no concurrent receive the
send blocks and the call does not return, which the embedding makes
observable as the CreateJobOutcome.blocks marker. Note that the body
never reads jm.shutdown (closed by Stop): the shutdownClosed component
of the state is carried through but not consulted. `records` is the
ghost list of rows inserted by the store-level CreateJob. -/

/-- State of the job manager as seen by CreateJob. `queueOf` maps a user
id to the contents of the user's buffered channel (`none` = no channel
created yet). -/
structure JMState where
  queueOf : Int → Option (List String)
  workers : Int → Bool
  shutdownClosed : Bool
  records : List (String × Int × String)

/-- How one CreateJob call ends: returning the job, returning the store
INSERT error, or blocking forever on the full channel (the call never
returns; no error value of any kind is produced). -/
inductive CreateJobOutcome
  | ok : String → CreateJobOutcome
  | persistError : String → CreateJobOutcome
  | blocks : CreateJobOutcome
deriving Repr, DecidableEq

/-- JobManager.CreateJob (part_003 lines 49-73). `storeOk` is whether
the store INSERT succeeds; on failure nothing else happens. -/
def JobManager.CreateJob (s : JMState) (userID : Int) (jobID : String) (jobType : String)
    (storeOk : Bool) : JMState × CreateJobOutcome :=
  if storeOk = false then
    (s, .persistError "failed to create job")
  else
    let s0 : JMState := { s with records := s.records ++ [(jobID, userID, jobType)] }
    let q : List String := (s0.queueOf userID).getD []
    let s1 : JMState := { s0 with
      queueOf := fun u => if u = userID then some q else s0.queueOf u,
      workers := fun u => if u = userID then true else s0.workers u }
    if q.length < 10 then
      ({ s1 with queueOf := fun u => if u = userID then some (q ++ [jobID]) else s1.queueOf u },
       .ok jobID)
    else
      (s1, .blocks)

/-- A manager state in which user 7's channel already holds 10 queued
jobs (its capacity) and user 7's worker is live. -/
def fullQueueState : JMState :=
  { queueOf := fun u => if u = 7 then
      some ["j0", "j1", "j2", "j3", "j4", "j5", "j6", "j7", "j8", "j9"] else none,
    workers := fun u => decide (u = 7),
    shutdownClosed := false,
    records := [] }

/-- C2 counterexample: submitting an 11th job for user 7 while the
bounded queue is at capacity 10 makes CreateJob block on the channel
send — the call does not return at all, so in particular it does not
fail fast with a QueueFullError (no such error exists anywhere in the
code: the only error CreateJob can return is the store INSERT error). -/
theorem queue_full_blocks_counterexample :
    (JobManager.CreateJob fullQueueState 7 "j10" "full" true).2 = CreateJobOutcome.blocks := by
  rfl

/-- C2 amended: whenever the tenant's queue already holds 10 or more
jobs and the store INSERT succeeds, CreateJob reaches the channel send
and blocks there; it never returns a queue-full error to the submitter. -/
theorem queue_full_submit_blocks (s : JMState) (userID : Int) (jobID : String)
    (jobType : String) (hfull : 10 ≤ ((s.queueOf userID).getD []).length) :
    (JobManager.CreateJob s userID jobID jobType true).2 = CreateJobOutcome.blocks := by
  rw [JobManager.CreateJob]
  simp only [Bool.true_eq_false, if_false, if_neg (by omega : ¬ ((s.queueOf userID).getD []).length < 10)]

/-- Witness for queue_full_submit_blocks at the concrete full state. -/
theorem queue_full_submit_blocks_witness :
    (JobManager.CreateJob fullQueueState 7 "j11" "test-login" true).2 = CreateJobOutcome.blocks :=
  queue_full_submit_blocks fullQueueState 7 "j11" "test-login" (by decide)

/-- A manager state after Stop() has begun: the shutdown channel is
closed and every worker has exited; no queues exist. -/
def shutdownState : JMState :=
  { queueOf := fun _ => none,
    workers := fun _ => false,
    shutdownClosed := true,
    records := [] }

/-- C3 counterexample: a CreateJob call made after Stop() has closed the
shutdown channel still succeeds — it returns the job and inserts a
pending record into the job store — because the body of CreateJob never
reads jm.shutdown. No ShuttingDownError exists anywhere in the code. -/
theorem submit_after_shutdown_counterexample :
    (JobManager.CreateJob shutdownState 7 "j1" "full" true).2 = CreateJobOutcome.ok "j1" ∧
    (JobManager.CreateJob shutdownState 7 "j1" "full" true).1.records = [("j1", 7, "full")] := by
  exact ⟨rfl, rfl⟩

/-- C3 amended: CreateJob does not consult the shutdown signal at all.
Its outcome and the records it inserts are identical whether or not
shutdown has begun, and whenever the store INSERT succeeds a pending
record for the job is inserted — also for late submissions. -/
theorem createJob_ignores_shutdown (q : Int → Option (List String)) (w : Int → Bool)
    (recs : List (String × Int × String)) (b1 b2 : Bool) (userID : Int)
    (jobID : String) (jobType : String) (storeOk : Bool) :
    ((JobManager.CreateJob ⟨q, w, b1, recs⟩ userID jobID jobType storeOk).2
        = (JobManager.CreateJob ⟨q, w, b2, recs⟩ userID jobID jobType storeOk).2) ∧
    ((JobManager.CreateJob ⟨q, w, b1, recs⟩ userID jobID jobType storeOk).1.records
        = (JobManager.CreateJob ⟨q, w, b2, recs⟩ userID jobID jobType storeOk).1.records) ∧
    ((JobManager.CreateJob ⟨q, w, b1, recs⟩ userID jobID jobType true).1.records
        = recs ++ [(jobID, userID, jobType)]) := by
  refine ⟨?_, ?_, ?_⟩
  · simp only [JobManager.CreateJob]
    split
    · rfl
    · split <;> rfl
  · simp only [JobManager.CreateJob]
    split
    · rfl
    · split <;> rfl
  · simp only [JobManager.CreateJob]
    split
    · next h => exact absurd h (by decide)
    · split <;> rfl

/-! ## Per-tenant serialization: the JobManager / workerLoop system as a
labelled transition system (part_003 lines 16-89)

States carry the shared data of the Go program: `queues` is the per-user
buffered channel contents (a user with no channel yet is the empty
list — CreateJob creates the channel before any send and workerLoop is
only ever spawned after its channel exists, so the nil-channel case is
unreachable); `flag` is the jm.workers map; `gos` is the list of live
workerLoop goroutines, each bound to one user and either idle (blocked
in select) or executing one dequeued job; `shutdown` is whether Stop()
has closed the shutdown channel. `submitted` and `started` are ghost
histories: the jobs whose CreateJob channel send completed, in
completion order, and the jobs each worker received from its channel,
in order. Transitions:
  - createJob: the whole CreateJob call (the mutex-guarded ensure
    queue/worker section is atomic in the code, and a buffered-channel
    send completes only while fewer than 10 jobs are buffered — a send
    against a full buffer simply has not happened yet);
  - dequeue: an idle worker receives the head of its channel (Go
    buffered channels deliver in FIFO order) and enters executeJob;
  - finish: executeJob returns and the worker goes back to its select;
  - stop: Stop() closes the shutdown channel (CreateJob ignores it);
  - workerExit: after shutdown an idle worker's select takes the
    shutdown arm and the goroutine returns.
Job ids are Nat, tenants are Int (int64 user ids). -/

/-- A worker goroutine is either blocked in its select or executing one
job. -/
inductive WState
  | idle : WState
  | executing : Nat → WState
deriving Repr, DecidableEq

/-- One live workerLoop goroutine: the user it serves and what it is
doing. -/
structure Goroutine where
  tenant : Int
  st : WState
deriving Repr, DecidableEq

/-- Shared state of the job manager system plus ghost histories. -/
structure SysState where
  queues : Int → List Nat
  flag : Int → Bool
  gos : List Goroutine
  submitted : Int → List Nat
  started : Int → List Nat
  shutdown : Bool

/-- The state right after NewJobManager(): empty maps, no goroutines. -/
def initState : SysState :=
  { queues := fun _ => [], flag := fun _ => false, gos := [],
    submitted := fun _ => [], started := fun _ => [], shutdown := false }

/-- One atomic step of the system. -/
inductive Step : SysState → SysState → Prop
  | createJob (s : SysState) (t : Int) (j : Nat)
      (hcap : (s.queues t).length < 10) :
      Step s { queues := fun u => if u = t then s.queues t ++ [j] else s.queues u,
               flag := fun u => if u = t then true else s.flag u,
               gos := if s.flag t then s.gos else s.gos ++ [⟨t, .idle⟩],
               submitted := fun u => if u = t then s.submitted t ++ [j] else s.submitted u,
               started := s.started,
               shutdown := s.shutdown }
  | dequeue (s : SysState) (t : Int) (j : Nat) (rest : List Nat) (l r : List Goroutine)
      (hg : s.gos = l ++ ⟨t, .idle⟩ :: r) (hq : s.queues t = j :: rest) :
      Step s { s with gos := l ++ ⟨t, .executing j⟩ :: r,
                      queues := fun u => if u = t then rest else s.queues u,
                      started := fun u => if u = t then s.started t ++ [j] else s.started u }
  | finish (s : SysState) (t : Int) (j : Nat) (l r : List Goroutine)
      (hg : s.gos = l ++ ⟨t, .executing j⟩ :: r) :
      Step s { s with gos := l ++ ⟨t, .idle⟩ :: r }
  | stop (s : SysState) :
      Step s { s with shutdown := true }
  | workerExit (s : SysState) (t : Int) (l r : List Goroutine)
      (hsd : s.shutdown = true) (hg : s.gos = l ++ ⟨t, .idle⟩ :: r) :
      Step s { s with gos := l ++ r }

/-- States reachable from the fresh manager. -/
inductive Reachable : SysState → Prop
  | init : Reachable initState
  | step {s s2 : SysState} (h1 : Reachable s) (h2 : Step s s2) : Reachable s2

/-- Number of live worker goroutines of tenant t. -/
def tenantGos (s : SysState) (t : Int) : Nat :=
  (s.gos.filter (fun g => g.tenant == t)).length

/-- Whether a worker state is mid-execution of a job. -/
def WState.isExecuting : WState → Bool
  | .idle => false
  | .executing _ => true

/-- Number of jobs of tenant t in the running state (each executing
goroutine of t runs exactly one job). -/
def runningCount (s : SysState) (t : Int) : Nat :=
  (s.gos.filter (fun g => g.tenant == t && g.st.isExecuting)).length

/-- System invariant: at most one worker goroutine per tenant, none for
tenants whose workers flag is unset, and each tenant's submission
history is exactly its dequeue history followed by its queue contents. -/
def SysInv (s : SysState) : Prop :=
  (∀ t, tenantGos s t ≤ 1) ∧
  (∀ t, s.flag t = false → tenantGos s t = 0) ∧
  (∀ t, s.submitted t = s.started t ++ s.queues t)

theorem filter_len_middle (p : Goroutine → Bool) (l r : List Goroutine) (a b : Goroutine)
    (hab : p a = p b) :
    ((l ++ a :: r).filter p).length = ((l ++ b :: r).filter p).length := by
  simp only [List.filter_append, List.filter_cons, hab]
  cases hpb : p b <;> simp [hpb]

theorem filter_len_remove (p : Goroutine → Bool) (l r : List Goroutine) (a : Goroutine) :
    ((l ++ r).filter p).length ≤ ((l ++ a :: r).filter p).length := by
  simp only [List.filter_append, List.filter_cons]
  cases hpa : p a <;> simp [hpa]

theorem length_filter_and_le (p q : Goroutine → Bool) (xs : List Goroutine) :
    (xs.filter (fun x => p x && q x)).length ≤ (xs.filter p).length := by
  induction xs with
  | nil => simp
  | cons x xs ih =>
      simp only [List.filter_cons]
      cases hp : p x <;> cases hq : q x <;> simp [hp, hq] <;> omega

theorem runningCount_le_tenantGos (s : SysState) (t : Int) :
    runningCount s t ≤ tenantGos s t :=
  length_filter_and_le (fun g => g.tenant == t) (fun g => g.st.isExecuting) s.gos

theorem sysInv_init : SysInv initState := by
  refine ⟨fun t => ?_, fun t _ => ?_, fun t => ?_⟩ <;>
    simp [tenantGos, initState]

theorem sysInv_step {s s2 : SysState} (hs : SysInv s) (h : Step s s2) : SysInv s2 := by
  obtain ⟨h1, h2, h3⟩ := hs
  cases h with
  | createJob t j hcap =>
      refine ⟨fun u => ?_, fun u hf => ?_, fun u => ?_⟩
      · dsimp only [tenantGos]
        by_cases hft : s.flag t = true
        · simp only [hft, if_true]
          exact h1 u
        · simp only [Bool.not_eq_true] at hft
          simp only [hft, Bool.false_eq_true, if_false, List.filter_append,
            List.length_append]
          by_cases hut : t = u
          · have hz : tenantGos s u = 0 := by
              rw [← hut]; exact h2 t hft
            dsimp only [tenantGos] at hz
            rw [hz]
            simp [hut]
          · simp [List.filter_cons, hut]
            exact h1 u
      · dsimp only [tenantGos] at *
        by_cases hut : u = t
        · subst hut
          simp only [if_pos rfl] at hf
          exact absurd hf (by simp)
        · simp only [if_neg hut] at hf
          by_cases hft : s.flag t = true
          · simp only [hft, if_true]
            exact h2 u hf
          · simp only [Bool.not_eq_true] at hft
            simp only [hft, Bool.false_eq_true, if_false, List.filter_append,
              List.length_append]
            rw [h2 u hf]
            have hbe : (t == u) = false := by
              simp only [beq_eq_false_iff_ne]
              intro hc
              exact hut hc.symm
            simp [List.filter_cons, hbe]
      · dsimp only
        by_cases hut : u = t
        · subst hut
          simp only [if_pos rfl]
          rw [h3 u]
          simp [List.append_assoc]
        · simp only [if_neg hut]
          exact h3 u
  | dequeue t j rest l r hg hq =>
      refine ⟨fun u => ?_, fun u hf => ?_, fun u => ?_⟩
      · dsimp only [tenantGos]
        rw [filter_len_middle (fun g => g.tenant == u) l r ⟨t, .executing j⟩ ⟨t, .idle⟩ rfl]
        have := h1 u
        dsimp only [tenantGos] at this
        rw [hg] at this
        exact this
      · dsimp only [tenantGos] at *
        rw [filter_len_middle (fun g => g.tenant == u) l r ⟨t, .executing j⟩ ⟨t, .idle⟩ rfl]
        have := h2 u hf
        rw [hg] at this
        exact this
      · dsimp only
        by_cases hut : u = t
        · subst hut
          simp only [if_pos rfl]
          rw [h3 u, hq]
          simp
        · simp only [if_neg hut]
          exact h3 u
  | finish t j l r hg =>
      refine ⟨fun u => ?_, fun u hf => ?_, fun u => ?_⟩
      · dsimp only [tenantGos]
        rw [filter_len_middle (fun g => g.tenant == u) l r ⟨t, .idle⟩ ⟨t, .executing j⟩ rfl]
        have := h1 u
        dsimp only [tenantGos] at this
        rw [hg] at this
        exact this
      · dsimp only [tenantGos] at *
        rw [filter_len_middle (fun g => g.tenant == u) l r ⟨t, .idle⟩ ⟨t, .executing j⟩ rfl]
        have := h2 u hf
        rw [hg] at this
        exact this
      · exact h3 u
  | stop =>
      exact ⟨h1, h2, h3⟩
  | workerExit t l r hsd hg =>
      refine ⟨fun u => ?_, fun u hf => ?_, fun u => ?_⟩
      · dsimp only [tenantGos]
        refine le_trans (filter_len_remove _ l r ⟨t, .idle⟩) ?_
        have := h1 u
        dsimp only [tenantGos] at this
        rw [hg] at this
        exact this
      · dsimp only [tenantGos] at *
        have := h2 u hf
        rw [hg] at this
        have hle := filter_len_remove (fun g => g.tenant == u) l r ⟨t, .idle⟩
        omega
      · exact h3 u

theorem reachable_sysInv {s : SysState} (h : Reachable s) : SysInv s := by
  induction h with
  | init => exact sysInv_init
  | step _ h2 ih => exact sysInv_step ih h2

/-- C1: per-tenant serialization. In every reachable state of the job
manager system, (a) at most one job of each tenant is in the running
state (each tenant has at most one worker goroutine, and a worker
executes at most one job at a time), and (b) the jobs each tenant's
worker has received, in order, followed by the jobs still queued, equal
exactly the tenant's submission history in submission order — so jobs of
one tenant are executed in strict FIFO submission order. Moreover (c)
tenants do not serialize against each other: a state is reachable in
which a job of tenant 1 and a job of tenant 2 are running at the same
instant. -/
theorem per_tenant_fifo_and_mutual_exclusion :
    (∀ s, Reachable s → ∀ t, runningCount s t ≤ 1 ∧
        s.submitted t = s.started t ++ s.queues t) ∧
    (∃ s, Reachable s ∧ 1 ≤ runningCount s 1 ∧ 1 ≤ runningCount s 2) := by
  constructor
  · intro s hs t
    have hinv := reachable_sysInv hs
    exact ⟨le_trans (runningCount_le_tenantGos s t) (hinv.1 t), hinv.2.2 t⟩
  · refine ⟨_, Reachable.step (Reachable.step (Reachable.step (Reachable.step Reachable.init
      (Step.createJob initState 1 10 (by decide)))
      (Step.createJob _ 2 20 (by decide)))
      (Step.dequeue _ 1 10 [] [] [⟨2, .idle⟩] (by rfl) (by rfl)))
      (Step.dequeue _ 2 20 [] [⟨1, .executing 10⟩] [] (by rfl) (by rfl)), ?_, ?_⟩
    · decide
    · decide

/-- Witness for per_tenant_fifo_and_mutual_exclusion: its invariant part
applied at the initial state (reachable by construction) and tenant 5. -/
theorem per_tenant_fifo_and_mutual_exclusion_witness :
    runningCount initState 5 ≤ 1 ∧
    initState.submitted 5 = initState.started 5 ++ initState.queues 5 :=
  per_tenant_fifo_and_mutual_exclusion.1 initState Reachable.init 5
